import Mathlib

/-!
Verification of the simpleline default event loop
(src/simpleline/event_loop/main_loop.py) and the input thread manager
(src/simpleline/input/input_threading.py), as a shallow embedding.

Python dicts are embedded as association lists (first-match lookup;
assignment overwrites the first matching key or appends a fresh one, which
matches dict semantics on the unique-key states the code constructs).
-/

/-- First-match lookup in an association list (embeds Python `d[k]`
presence testing and reading). -/
def alookup {α β : Type} [DecidableEq α] : List (α × β) → α → Option β
  | [], _ => none
  | (k, v) :: rest, a => if k = a then some v else alookup rest a

/-- Embeds Python `d[k] = v`: overwrite the entry if the key is present,
append it otherwise. -/
def aset {α β : Type} [DecidableEq α] : List (α × β) → α → β → List (α × β)
  | [], a, b => [(a, b)]
  | (k, v) :: rest, a, b => if k = a then (a, b) :: rest else (k, v) :: aset rest a b

/-- Embeds Python `d.pop(k)` (the removal part): drop the first entry with
the given key. -/
def aremove {α β : Type} [DecidableEq α] : List (α × β) → α → List (α × β)
  | [], _ => []
  | (k, v) :: rest, a => if k = a then rest else (k, v) :: aremove rest a

theorem alookup_aset_self {α β : Type} [DecidableEq α] (l : List (α × β)) (a : α) (b : β) :
    alookup (aset l a b) a = some b := by
  induction l with
  | nil => simp [aset, alookup]
  | cons p rest ih =>
    obtain ⟨k, v⟩ := p
    by_cases h : k = a
    · simp [aset, alookup, h]
    · simp [aset, alookup, h, ih]

theorem alookup_aset_other {α β : Type} [DecidableEq α] (l : List (α × β)) (a a' : α) (b : β)
    (h : a ≠ a') : alookup (aset l a b) a' = alookup l a' := by
  induction l with
  | nil =>
    simp [aset, alookup]
    exact h
  | cons p rest ih =>
    obtain ⟨k, v⟩ := p
    by_cases hk : k = a
    · subst hk
      simp [aset, alookup, h, Ne.symm h]
    · simp [aset, alookup, hk, ih]

theorem alookup_append_of_some {α β : Type} [DecidableEq α] (l l' : List (α × β)) (a : α) (b : β)
    (h : alookup l a = some b) : alookup (l ++ l') a = some b := by
  induction l with
  | nil => simp [alookup] at h
  | cons p rest ih =>
    obtain ⟨k, v⟩ := p
    by_cases hk : k = a
    · simp [alookup, hk] at h ⊢
      exact h
    · simp [alookup, hk] at h ⊢
      exact ih h

theorem alookup_append_of_none {α β : Type} [DecidableEq α] (l l' : List (α × β)) (a : α)
    (h : alookup l a = none) : alookup (l ++ l') a = alookup l' a := by
  induction l with
  | nil => simp [alookup]
  | cons p rest ih =>
    obtain ⟨k, v⟩ := p
    by_cases hk : k = a
    · simp [alookup, hk] at h
    · simp [alookup, hk] at h ⊢
      exact ih h

theorem alookup_aremove_other {α β : Type} [DecidableEq α] (l : List (α × β)) (a a' : α)
    (h : a ≠ a') : alookup (aremove l a) a' = alookup l a' := by
  induction l with
  | nil => simp [aremove]
  | cons p rest ih =>
    obtain ⟨k, v⟩ := p
    by_cases hk : k = a
    · subst hk
      simp [aremove, alookup, h]
    · simp [aremove, alookup, hk, ih]

/-- Keys of an association list. -/
def akeys {α β : Type} (l : List (α × β)) : List α := l.map Prod.fst

theorem alookup_eq_none_of_not_mem_keys {α β : Type} [DecidableEq α] (l : List (α × β)) (a : α)
    (h : a ∉ akeys l) : alookup l a = none := by
  induction l with
  | nil => simp [alookup]
  | cons p rest ih =>
    obtain ⟨k, v⟩ := p
    simp [akeys] at h
    have hk : k ≠ a := fun he => h.1 he.symm
    simp [alookup, hk]
    exact ih (by simp [akeys]; exact h.2)

theorem alookup_aremove_self {α β : Type} [DecidableEq α] (l : List (α × β)) (a : α)
    (h : (akeys l).Nodup) : alookup (aremove l a) a = none := by
  induction l with
  | nil => simp [aremove, alookup]
  | cons p rest ih =>
    obtain ⟨k, v⟩ := p
    simp [akeys] at h
    by_cases hk : k = a
    · subst hk
      simp [aremove]
      exact alookup_eq_none_of_not_mem_keys rest k (by simpa [akeys] using h.1)
    · simp [aremove, alookup, hk]
      exact ih h.2

theorem akeys_aset_present {α β : Type} [DecidableEq α] (l : List (α × β)) (a : α) (b b0 : β)
    (h : alookup l a = some b0) : akeys (aset l a b) = akeys l := by
  induction l with
  | nil => simp [alookup] at h
  | cons p rest ih =>
    obtain ⟨k, v⟩ := p
    by_cases hk : k = a
    · simp [aset, akeys, hk]
    · simp [alookup, hk] at h
      simp [aset, akeys, hk]
      exact ih h

theorem akeys_aset_absent {α β : Type} [DecidableEq α] (l : List (α × β)) (a : α) (b : β)
    (h : alookup l a = none) : akeys (aset l a b) = akeys l ++ [a] := by
  induction l with
  | nil => simp [aset, akeys]
  | cons p rest ih =>
    obtain ⟨k, v⟩ := p
    by_cases hk : k = a
    · simp [alookup, hk] at h
    · simp [alookup, hk] at h
      have h2 := ih h
      simp [akeys] at h2
      simp [aset, akeys, hk, h2]

theorem akeys_aremove_sublist {α β : Type} [DecidableEq α] (l : List (α × β)) (a : α) :
    (akeys (aremove l a)).Sublist (akeys l) := by
  induction l with
  | nil => simp [aremove]
  | cons p rest ih =>
    obtain ⟨k, v⟩ := p
    by_cases hk : k = a
    · subst hk
      simp only [aremove, if_pos rfl, akeys, List.map_cons]
      exact List.sublist_cons_self _ _
    · simp only [aremove, akeys, if_neg hk, List.map_cons]
      exact List.Sublist.cons₂ _ ih

/-! ## TicketMachine (main_loop.py lines 218-270) -/

/-- Result of `TicketMachine.check_ticket`: the Python method can raise
`KeyError` (missing line or missing id), fall through returning the
implicit `None`, or return the popped stored value (`True` on the paths
the loop exercises). -/
inductive CheckResult where
  | keyError : CheckResult
  | returnedNone : CheckResult
  | returnedVal (b : Bool) : CheckResult
  deriving DecidableEq

/-- `TicketMachine.__init__`: `self._lines = {}` is a dict from line id
(signal class name) to a dict from ticket id to released flag;
`self._counter = 0`. -/
structure TicketMachine where
  lines : List (String × List (Int × Bool))
  counter : Int
  deriving DecidableEq

/-- `TicketMachine.take_ticket` (lines 228-243): allocate `obj_id` from the
counter, store released = False under the line (creating the line if
absent), bump the counter, return the id. -/
def TicketMachine.take_ticket (tm : TicketMachine) (line_id : String) : Int × TicketMachine :=
  let obj_id := tm.counter
  let lines :=
    match alookup tm.lines line_id with
    | none => tm.lines ++ [(line_id, [(obj_id, false)])]
    | some ln => aset tm.lines line_id (aset ln obj_id false)
  (obj_id, ⟨lines, tm.counter + 1⟩)

/-- `TicketMachine.check_ticket` (lines 245-257): `self._lines[line]` and
`[unique_id]` raise `KeyError` when absent; a released flag is popped
(removed) and returned; an unreleased flag falls through to `None`. -/
def TicketMachine.check_ticket (tm : TicketMachine) (line : String) (unique_id : Int) :
    CheckResult × TicketMachine :=
  match alookup tm.lines line with
  | none => (CheckResult.keyError, tm)
  | some ln =>
    match alookup ln unique_id with
    | none => (CheckResult.keyError, tm)
    | some b =>
      if b then
        (CheckResult.returnedVal b, ⟨aset tm.lines line (aremove ln unique_id), tm.counter⟩)
      else
        (CheckResult.returnedNone, tm)

/-- `TicketMachine.mark_line_to_go` (lines 259-270): if the line exists,
set every ticket flag in it to True. -/
def TicketMachine.mark_line_to_go (tm : TicketMachine) (line : String) : TicketMachine :=
  match alookup tm.lines line with
  | none => tm
  | some ln => ⟨aset tm.lines line (ln.map fun p => (p.1, true)), tm.counter⟩

/-- The released flag recorded for ticket `i` of line `L`, if any. -/
def ticketFlag (tm : TicketMachine) (L : String) (i : Int) : Option Bool :=
  (alookup tm.lines L).bind fun ln => alookup ln i

/-- An operation sequence on a ticket machine, used to state the ticket
laws over arbitrary interleavings. -/
inductive TMOp where
  | take (L : String)
  | mark (L : String)
  | check (L : String) (i : Int)
  deriving DecidableEq

def TMOp.apply (tm : TicketMachine) : TMOp → TicketMachine
  | .take L => (tm.take_ticket L).2
  | .mark L => tm.mark_line_to_go L
  | .check L i => (tm.check_ticket L i).2

def TMOps.apply (tm : TicketMachine) (ops : List TMOp) : TicketMachine :=
  ops.foldl TMOp.apply tm

/-- Well-formed ticket state: line keys are unique and each line has
unique ticket ids (the shape Python dicts always have). -/
def TicketMachine.wf (tm : TicketMachine) : Prop :=
  (akeys tm.lines).Nodup ∧ ∀ p ∈ tm.lines, (akeys p.2).Nodup

theorem alookup_mem {α β : Type} [DecidableEq α] (l : List (α × β)) (a : α) (b : β)
    (h : alookup l a = some b) : (a, b) ∈ l := by
  induction l with
  | nil => simp [alookup] at h
  | cons p rest ih =>
    obtain ⟨k, v⟩ := p
    by_cases hk : k = a
    · subst hk
      simp [alookup] at h
      simp [h]
    · simp [alookup, hk] at h
      simp [ih h]

theorem not_mem_keys_of_alookup_eq_none {α β : Type} [DecidableEq α] (l : List (α × β)) (a : α)
    (h : alookup l a = none) : a ∉ akeys l := by
  induction l with
  | nil => simp [akeys]
  | cons p rest ih =>
    obtain ⟨k, v⟩ := p
    by_cases hk : k = a
    · simp [alookup, hk] at h
    · simp [alookup, hk] at h
      simp [akeys, Ne.symm hk]
      simpa [akeys] using ih h

theorem mem_aset {α β : Type} [DecidableEq α] (l : List (α × β)) (a : α) (b : β) (p : α × β)
    (h : p ∈ aset l a b) : p ∈ l ∨ p = (a, b) := by
  induction l with
  | nil => simpa [aset] using h
  | cons q rest ih =>
    obtain ⟨k, v⟩ := q
    by_cases hk : k = a
    · simp [aset, hk] at h
      rcases h with h | h
      · right; simp [h]
      · left; simp [h]
    · simp [aset, hk] at h
      rcases h with h | h
      · left; simp [h]
      · rcases ih h with h2 | h2
        · left; simp [h2]
        · right; exact h2

theorem akeys_map_true (ln : List (Int × Bool)) :
    akeys (ln.map fun p => (p.1, true)) = akeys ln := by
  simp [akeys, List.map_map]

/-- `take_ticket` records the fresh id with released = False. -/
theorem ticketFlag_take_self (tm : TicketMachine) (L : String) :
    ticketFlag (tm.take_ticket L).2 L tm.counter = some false := by
  rcases hL : alookup tm.lines L with _ | ln
  · simp [TicketMachine.take_ticket, hL, ticketFlag, alookup_append_of_none _ _ _ hL, alookup]
  · simp [TicketMachine.take_ticket, hL, ticketFlag, alookup_aset_self]

theorem take_ticket_fst (tm : TicketMachine) (L : String) :
    (tm.take_ticket L).1 = tm.counter := rfl

theorem take_ticket_counter (tm : TicketMachine) (L : String) :
    (tm.take_ticket L).2.counter = tm.counter + 1 := by
  rcases hL : alookup tm.lines L with _ | ln <;> simp [TicketMachine.take_ticket, hL]

theorem mark_counter (tm : TicketMachine) (L : String) :
    (tm.mark_line_to_go L).counter = tm.counter := by
  rcases hL : alookup tm.lines L with _ | ln <;> simp [TicketMachine.mark_line_to_go, hL]

theorem check_counter (tm : TicketMachine) (L : String) (i : Int) :
    (tm.check_ticket L i).2.counter = tm.counter := by
  rcases hL : alookup tm.lines L with _ | ln
  · simp [TicketMachine.check_ticket, hL]
  · rcases hi : alookup ln i with _ | b
    · simp [TicketMachine.check_ticket, hL, hi]
    · cases b <;> simp [TicketMachine.check_ticket, hL, hi]

/-- A ticket whose recorded flag is False checks as None and leaves the
machine untouched. -/
theorem check_of_flag_false (tm : TicketMachine) (L : String) (i : Int)
    (h : ticketFlag tm L i = some false) :
    tm.check_ticket L i = (CheckResult.returnedNone, tm) := by
  unfold ticketFlag at h
  rcases hL : alookup tm.lines L with _ | ln
  · rw [hL] at h
    simp at h
  · rw [hL] at h
    simp at h
    simp [TicketMachine.check_ticket, hL, h]

theorem wf_take (tm : TicketMachine) (L : String) (h : tm.wf) : (tm.take_ticket L).2.wf := by
  obtain ⟨hkeys, hlines⟩ := h
  rcases hL : alookup tm.lines L with _ | ln
  · simp only [TicketMachine.take_ticket, hL, TicketMachine.wf]
    constructor
    · have he : akeys (tm.lines ++ [(L, [(tm.counter, false)])]) = akeys tm.lines ++ [L] := by
        simp [akeys]
      rw [he]
      refine List.Nodup.append hkeys (by simp) ?_
      intro x hx hx2
      simp at hx2
      exact not_mem_keys_of_alookup_eq_none tm.lines L hL (hx2 ▸ hx)
    · intro p hp
      rcases List.mem_append.mp hp with hp | hp
      · exact hlines p hp
      · simp at hp
        subst hp
        simp [akeys]
  · simp only [TicketMachine.take_ticket, hL, TicketMachine.wf]
    constructor
    · rw [akeys_aset_present tm.lines L _ ln hL]
      exact hkeys
    · intro p hp
      rcases mem_aset _ _ _ _ hp with hp2 | hp2
      · exact hlines p hp2
      · subst hp2
        have hln : (akeys ln).Nodup := hlines (L, ln) (alookup_mem _ _ _ hL)
        rcases hi : alookup ln tm.counter with _ | b
        · rw [akeys_aset_absent ln tm.counter false hi]
          refine List.Nodup.append hln (by simp) ?_
          intro x hx hx2
          simp at hx2
          subst hx2
          exact not_mem_keys_of_alookup_eq_none ln tm.counter hi hx
        · rw [akeys_aset_present ln tm.counter false b hi]
          exact hln

theorem wf_mark (tm : TicketMachine) (L : String) (h : tm.wf) : (tm.mark_line_to_go L).wf := by
  obtain ⟨hkeys, hlines⟩ := h
  rcases hL : alookup tm.lines L with _ | ln
  · simp only [TicketMachine.mark_line_to_go, hL]
    exact ⟨hkeys, hlines⟩
  · simp only [TicketMachine.mark_line_to_go, hL, TicketMachine.wf]
    constructor
    · rw [akeys_aset_present tm.lines L _ ln hL]
      exact hkeys
    · intro p hp
      rcases mem_aset _ _ _ _ hp with hp2 | hp2
      · exact hlines p hp2
      · subst hp2
        have hln : (akeys ln).Nodup := hlines (L, ln) (alookup_mem _ _ _ hL)
        simpa [akeys_map_true] using hln

theorem wf_check (tm : TicketMachine) (L : String) (i : Int) (h : tm.wf) :
    (tm.check_ticket L i).2.wf := by
  obtain ⟨hkeys, hlines⟩ := h
  rcases hL : alookup tm.lines L with _ | ln
  · simp only [TicketMachine.check_ticket, hL]
    exact ⟨hkeys, hlines⟩
  · rcases hi : alookup ln i with _ | b
    · simp only [TicketMachine.check_ticket, hL, hi]
      exact ⟨hkeys, hlines⟩
    · cases b with
      | false =>
        simp only [TicketMachine.check_ticket, hL, hi]
        exact ⟨hkeys, hlines⟩
      | true =>
        have hgoal : (tm.check_ticket L i).2
            = ⟨aset tm.lines L (aremove ln i), tm.counter⟩ := by
          simp [TicketMachine.check_ticket, hL, hi]
        rw [hgoal]
        constructor
        · rw [akeys_aset_present tm.lines L _ ln hL]
          exact hkeys
        · intro p hp
          rcases mem_aset _ _ _ _ hp with hp2 | hp2
          · exact hlines p hp2
          · subst hp2
            have hln : (akeys ln).Nodup := hlines (L, ln) (alookup_mem _ _ _ hL)
            exact (akeys_aremove_sublist ln i).nodup hln

theorem alookup_map_true (ln : List (Int × Bool)) (i : Int) (b : Bool)
    (h : alookup ln i = some b) :
    alookup (ln.map fun p => (p.1, true)) i = some true := by
  induction ln with
  | nil => simp [alookup] at h
  | cons p rest ih =>
    obtain ⟨k, v⟩ := p
    by_cases hk : k = i
    · simp [alookup, hk]
    · simp [alookup, hk] at h
      simp [alookup, hk, ih h]

/-- Invariant carried across operations that do not mark line `L`: the
ticket is present and unreleased, its id is below the counter, and the
machine stays well formed. -/
def TicketInv (L : String) (i : Int) (tm : TicketMachine) : Prop :=
  ticketFlag tm L i = some false ∧ i < tm.counter ∧ tm.wf

theorem ticketInv_apply (L : String) (i : Int) (tm : TicketMachine) (op : TMOp)
    (hop : op ≠ TMOp.mark L) (h : TicketInv L i tm) : TicketInv L i (op.apply tm) := by
  obtain ⟨hflag, hlt, hwf⟩ := h
  unfold ticketFlag at hflag
  rcases hLn : alookup tm.lines L with _ | ln
  · rw [hLn] at hflag
    simp at hflag
  rw [hLn] at hflag
  simp at hflag
  cases op with
  | take L2 =>
    refine ⟨?_, ?_, wf_take tm L2 hwf⟩
    · show ticketFlag (tm.take_ticket L2).2 L i = some false
      unfold ticketFlag TicketMachine.take_ticket
      rcases hL2 : alookup tm.lines L2 with _ | ln2
      · simp [alookup_append_of_some _ _ _ _ hLn, hflag]
      · by_cases he : L2 = L
        · subst he
          rw [hL2] at hLn
          injection hLn with hLn
          subst hLn
          have hne : tm.counter ≠ i := fun hc => absurd hlt (by rw [hc]; exact lt_irrefl i)
          simp [alookup_aset_self, alookup_aset_other _ _ _ _ hne, hflag]
        · simp [alookup_aset_other _ _ _ _ he, hLn, hflag]
    · show i < (tm.take_ticket L2).2.counter
      rw [take_ticket_counter]
      exact lt_trans hlt (lt_add_one _)
  | mark L2 =>
    have hne : L2 ≠ L := fun he => hop (by rw [he])
    refine ⟨?_, ?_, wf_mark tm L2 hwf⟩
    · show ticketFlag (tm.mark_line_to_go L2) L i = some false
      unfold ticketFlag TicketMachine.mark_line_to_go
      rcases hL2 : alookup tm.lines L2 with _ | ln2
      · simp [hLn, hflag]
      · simp [alookup_aset_other _ _ _ _ hne, hLn, hflag]
    · show i < (tm.mark_line_to_go L2).counter
      rw [mark_counter]
      exact hlt
  | check L2 i2 =>
    refine ⟨?_, ?_, wf_check tm L2 i2 hwf⟩
    · show ticketFlag (tm.check_ticket L2 i2).2 L i = some false
      unfold ticketFlag TicketMachine.check_ticket
      rcases hL2 : alookup tm.lines L2 with _ | ln2
      · simp [hL2, hLn, hflag]
      · rcases hi2 : alookup ln2 i2 with _ | b
        · simp [hL2, hi2, hLn, hflag]
        · cases b with
          | false => simp [hL2, hi2, hLn, hflag]
          | true =>
            by_cases he : L2 = L
            · subst he
              rw [hL2] at hLn
              injection hLn with hLn
              subst hLn
              have hne : i2 ≠ i := by
                intro hc
                rw [hc] at hi2
                rw [hi2] at hflag
                exact Bool.noConfusion (Option.some.inj hflag)
              simp [hL2, hi2, alookup_aset_self, alookup_aremove_other _ _ _ hne, hflag]
            · simp [hL2, hi2, alookup_aset_other _ _ _ _ he, hLn, hflag]
    · show i < (tm.check_ticket L2 i2).2.counter
      rw [check_counter]
      exact hlt

theorem ticketInv_applyOps (L : String) (i : Int) (ops : List TMOp) (tm : TicketMachine)
    (hops : ∀ op ∈ ops, op ≠ TMOp.mark L) (h : TicketInv L i tm) :
    TicketInv L i (TMOps.apply tm ops) := by
  induction ops generalizing tm with
  | nil => exact h
  | cons op rest ih =>
    exact ih (op.apply tm) (fun o ho => hops o (by simp [ho]))
      (ticketInv_apply L i tm op (hops op (by simp)) h)

/-- After marking line `L`, a pending ticket checks as True, the entry is
removed, and a re-check raises KeyError. -/
theorem check_after_mark (tm : TicketMachine) (L : String) (i : Int) (h : TicketInv L i tm) :
    ((tm.mark_line_to_go L).check_ticket L i).1 = CheckResult.returnedVal true ∧
    ticketFlag ((tm.mark_line_to_go L).check_ticket L i).2 L i = none ∧
    (((tm.mark_line_to_go L).check_ticket L i).2.check_ticket L i).1 = CheckResult.keyError := by
  obtain ⟨hflag, _hlt, hwf⟩ := h
  unfold ticketFlag at hflag
  rcases hLn : alookup tm.lines L with _ | ln
  · rw [hLn] at hflag
    simp at hflag
  rw [hLn] at hflag
  simp at hflag
  have hmark : tm.mark_line_to_go L
      = ⟨aset tm.lines L (ln.map fun p => (p.1, true)), tm.counter⟩ := by
    simp [TicketMachine.mark_line_to_go, hLn]
  have hLn2 : alookup (tm.mark_line_to_go L).lines L = some (ln.map fun p => (p.1, true)) := by
    rw [hmark]
    exact alookup_aset_self _ _ _
  have hi2 : alookup (ln.map fun p => (p.1, true)) i = some true :=
    alookup_map_true ln i false hflag
  have hcheck : (tm.mark_line_to_go L).check_ticket L i
      = (CheckResult.returnedVal true,
         ⟨aset (tm.mark_line_to_go L).lines L (aremove (ln.map fun p => (p.1, true)) i),
          (tm.mark_line_to_go L).counter⟩) := by
    simp [TicketMachine.check_ticket, hLn2, hi2]
  have hnodup : (akeys (ln.map fun p => (p.1, true))).Nodup := by
    rw [akeys_map_true]
    exact hwf.2 (L, ln) (alookup_mem _ _ _ hLn)
  have hgone : alookup (aremove (ln.map fun p => (p.1, true)) i) i = none :=
    alookup_aremove_self _ i hnodup
  refine ⟨by rw [hcheck], ?_, ?_⟩
  · rw [hcheck]
    unfold ticketFlag
    simp [alookup_aset_self, hgone]
  · rw [hcheck]
    simp [TicketMachine.check_ticket, alookup_aset_self, hgone]

/-- C4 (amended). Ticket laws of the TicketMachine, for a well formed
machine: a ticket obtained by take_ticket(L) checks as the Python None (a
falsy value, not the value False) and leaves the machine untouched while
no mark_line_to_go(L) has happened, across any interleaving of other
operations; after a subsequent mark_line_to_go(L) the check returns True
and removes the ticket, so a further check of the same id raises KeyError
(consumed at most once); and a ticket taken after a mark is not released
by that prior mark. -/
theorem ticket_machine_laws (tm : TicketMachine) (L : String) (ops : List TMOp)
    (hwf : tm.wf) (hops : ∀ op ∈ ops, op ≠ TMOp.mark L) :
    (TMOps.apply (tm.take_ticket L).2 ops).check_ticket L (tm.take_ticket L).1
        = (CheckResult.returnedNone, TMOps.apply (tm.take_ticket L).2 ops) ∧
    (((TMOps.apply (tm.take_ticket L).2 ops).mark_line_to_go L).check_ticket L
        (tm.take_ticket L).1).1 = CheckResult.returnedVal true ∧
    ticketFlag (((TMOps.apply (tm.take_ticket L).2 ops).mark_line_to_go L).check_ticket L
        (tm.take_ticket L).1).2 L (tm.take_ticket L).1 = none ∧
    (((((TMOps.apply (tm.take_ticket L).2 ops).mark_line_to_go L).check_ticket L
        (tm.take_ticket L).1).2).check_ticket L (tm.take_ticket L).1).1
        = CheckResult.keyError ∧
    (((tm.mark_line_to_go L).take_ticket L).2.check_ticket L
        ((tm.mark_line_to_go L).take_ticket L).1).1 = CheckResult.returnedNone := by
  have h0 : TicketInv L (tm.take_ticket L).1 (tm.take_ticket L).2 := by
    refine ⟨?_, ?_, wf_take tm L hwf⟩
    · rw [take_ticket_fst]
      exact ticketFlag_take_self tm L
    · rw [take_ticket_fst, take_ticket_counter]
      exact lt_add_one _
  have hA : TicketInv L (tm.take_ticket L).1 (TMOps.apply (tm.take_ticket L).2 ops) :=
    ticketInv_applyOps L _ ops _ hops h0
  obtain ⟨hb1, hb2, hb3⟩ := check_after_mark _ L _ hA
  refine ⟨check_of_flag_false _ L _ hA.1, hb1, hb2, hb3, ?_⟩
  have hflag : ticketFlag ((tm.mark_line_to_go L).take_ticket L).2 L
      ((tm.mark_line_to_go L).take_ticket L).1 = some false := by
    rw [take_ticket_fst]
    exact ticketFlag_take_self _ L
  rw [check_of_flag_false _ L _ hflag]

/-- C4 counterexample: the claim says an unreleased ticket makes
check_ticket "return false"; the code returns the implicit Python None
(modelled as returnedNone), a falsy value distinct from the value False. -/
theorem check_ticket_unreleased_not_false :
    (((TicketMachine.mk [] 0).take_ticket "SignalA").2.check_ticket "SignalA" 0).1
        = CheckResult.returnedNone ∧
    CheckResult.returnedNone ≠ CheckResult.returnedVal false := by
  constructor
  · decide
  · decide

/-- Witness for `ticket_machine_laws`: its hypotheses hold at the empty
machine with one interleaved take on another line; the conclusion follows
by applying the theorem there. -/
theorem ticket_machine_laws_witness :
    ((TicketMachine.mk [] 0).wf ∧ ∀ op ∈ [TMOp.take "Other"], op ≠ TMOp.mark "SignalA") ∧
    ((TMOps.apply ((TicketMachine.mk [] 0).take_ticket "SignalA").2
        [TMOp.take "Other"]).check_ticket "SignalA"
        (((TicketMachine.mk [] 0)).take_ticket "SignalA").1
      = (CheckResult.returnedNone,
         TMOps.apply ((TicketMachine.mk [] 0).take_ticket "SignalA").2 [TMOp.take "Other"])) :=
  ⟨⟨⟨by simp [akeys], by simp⟩, by simp⟩,
    (ticket_machine_laws (TicketMachine.mk [] 0) "SignalA" [TMOp.take "Other"]
      ⟨by simp [akeys], by simp⟩ (by simp)).1⟩

/-- C10: check_ticket is partial at its interface: a missing line raises
KeyError, a missing ticket id (for example one already consumed) raises
KeyError, an unreleased ticket yields the implicit falsy None with the
machine left intact, and no call ever returns the explicit value False. -/
theorem check_ticket_partiality (tm : TicketMachine) (L : String) (i : Int) :
    (alookup tm.lines L = none → tm.check_ticket L i = (CheckResult.keyError, tm)) ∧
    (∀ ln, alookup tm.lines L = some ln → alookup ln i = none →
        tm.check_ticket L i = (CheckResult.keyError, tm)) ∧
    (∀ ln, alookup tm.lines L = some ln → alookup ln i = some false →
        tm.check_ticket L i = (CheckResult.returnedNone, tm)) ∧
    (tm.check_ticket L i).1 ≠ CheckResult.returnedVal false := by
  refine ⟨?_, ?_, ?_, ?_⟩
  · intro h
    simp [TicketMachine.check_ticket, h]
  · intro ln hL hi
    simp [TicketMachine.check_ticket, hL, hi]
  · intro ln hL hi
    simp [TicketMachine.check_ticket, hL, hi]
  · rcases hL : alookup tm.lines L with _ | ln
    · simp [TicketMachine.check_ticket, hL]
    · rcases hi : alookup ln i with _ | b
      · simp [TicketMachine.check_ticket, hL, hi]
      · cases b <;> simp [TicketMachine.check_ticket, hL, hi]

/-- Witness for `check_ticket_partiality`: concrete machines exercise the
missing-line KeyError, the consumed-id KeyError (the line is the state
reached after taking, marking, and consuming a ticket) and the unreleased
None case. -/
theorem check_ticket_partiality_witness :
    ((((TicketMachine.mk [] 0).take_ticket "SignalB").2.mark_line_to_go
        "SignalB").check_ticket "SignalB" 0
      = (CheckResult.returnedVal true, TicketMachine.mk [("SignalB", [])] 1)) ∧
    (alookup (TicketMachine.mk [] 0).lines "SignalB" = none ∧
      TicketMachine.check_ticket (TicketMachine.mk [] 0) "SignalB" 0
        = (CheckResult.keyError, TicketMachine.mk [] 0)) ∧
    (alookup (TicketMachine.mk [("SignalB", [])] 1).lines "SignalB" = some [] ∧
      alookup ([] : List (Int × Bool)) 0 = none ∧
      TicketMachine.check_ticket (TicketMachine.mk [("SignalB", [])] 1) "SignalB" 0
        = (CheckResult.keyError, TicketMachine.mk [("SignalB", [])] 1)) ∧
    (alookup (TicketMachine.mk [("SignalB", [(0, false)])] 1).lines "SignalB"
        = some [(0, false)] ∧
      TicketMachine.check_ticket (TicketMachine.mk [("SignalB", [(0, false)])] 1) "SignalB" 0
        = (CheckResult.returnedNone, TicketMachine.mk [("SignalB", [(0, false)])] 1)) :=
  ⟨by decide,
   ⟨by decide, (check_ticket_partiality (TicketMachine.mk [] 0) "SignalB" 0).1 (by decide)⟩,
   ⟨by decide, by decide,
    (check_ticket_partiality (TicketMachine.mk [("SignalB", [])] 1) "SignalB" 0).2.1
      [] (by decide) (by decide)⟩,
   ⟨by decide,
    (check_ticket_partiality (TicketMachine.mk [("SignalB", [(0, false)])] 1) "SignalB"
      0).2.2.1 [(0, false)] (by decide) (by decide)⟩⟩

/-! ## Signals and event queues -/

/-- Signal kinds are embedded as the Python class name: dispatch keys on
`type(signal)` (line 180) and ticket lines on the class name (lines 196,
199). -/
def exceptionSignalKind : String := "ExceptionSignal"

def inputReadySignalKind : String := "InputReadySignal"

/-- Modelled from the spec: simpleline/event_loop/signals.py is not under
src. A signal carries a kind (its class tag), an opaque source identity,
a payload, and, for the exception-carrying kind, the captured pair
`exception_info = (exception, cause)` (spec sections 3 and 6). -/
structure Signal where
  kind : String
  source : Nat
  payload : Nat
  exception_info : Nat × Nat
  deriving DecidableEq

/-- Modelled from the spec: simpleline/event_loop/event_queue.py is not
under src. A Signal Queue is a FIFO of signals plus the recognized-source
set of this loop level (spec sections 3 and 4.1). -/
structure EventQueue where
  queue : List Signal
  sources : List Nat
  deriving DecidableEq

/-- Modelled from the spec: `enqueue(signal)` appends (spec section 4.1). -/
def EventQueue.enqueue (q : EventQueue) (s : Signal) : EventQueue :=
  { q with queue := q.queue ++ [s] }

/-- Modelled from the spec: `enqueue_if_source_belongs(signal, source)`
appends and returns success only if the source is in the recognized set,
else it is a no-op returning failure (spec section 4.1). -/
def EventQueue.enqueue_if_source_belongs (q : EventQueue) (s : Signal) (source : Nat) :
    Bool × EventQueue :=
  if source ∈ q.sources then (true, q.enqueue s) else (false, q)

/-- Modelled from the spec: `add_source` registers a source as belonging
to this level (spec section 4.1; used by `register_signal_source`,
main_loop.py lines 64-70). -/
def EventQueue.add_source (q : EventQueue) (source : Nat) : EventQueue :=
  { q with sources := q.sources ++ [source] }

/-- Apply a function to the last element of a list (the active queue sits
at the end of `self._event_queues`). -/
def updLast {α : Type} (f : α → α) : List α → List α
  | [] => []
  | [a] => [f a]
  | a :: rest => a :: updLast f rest

/-- Apply a function to the element at an index. -/
def updIdx {α : Type} (f : α → α) : Nat → List α → List α
  | _, [] => []
  | 0, a :: rest => f a :: rest
  | i + 1, a :: rest => a :: updIdx f i rest

/-- The scan of `MainLoop.enqueue_signal` (lines 131-134): try queues from
the innermost (last element) outward; the first queue whose recognized
sources contain the signal source takes the signal. `none` means no queue
recognized the source. -/
def enqueueScan : List EventQueue → Signal → Option (List EventQueue)
  | [], _ => none
  | q :: rest, s =>
    match enqueueScan rest s with
    | some rest2 => some (q :: rest2)
    | none =>
      let r := q.enqueue_if_source_belongs s s.source
      if r.1 then some (r.2 :: rest) else none

/-- `MainLoop.enqueue_signal` (lines 118-136) acting on the queue stack:
deliver to the innermost queue recognizing the source; if none does,
enqueue to the active (last) queue. -/
def enqueueSignalQueues (qs : List EventQueue) (s : Signal) : List EventQueue :=
  match enqueueScan qs s with
  | some qs2 => qs2
  | none => updLast (fun q => q.enqueue s) qs

/-- The index of the innermost (largest-index) level whose
recognized-source set contains the given source. -/
def lastRecognizingIdx : List EventQueue → Nat → Option Nat
  | [], _ => none
  | q :: rest, src =>
    match lastRecognizingIdx rest src with
    | some i => some (i + 1)
    | none => if src ∈ q.sources then some 0 else none

theorem enqueueScan_eq_idx (qs : List EventQueue) (s : Signal) :
    enqueueScan qs s
      = (lastRecognizingIdx qs s.source).map
          (fun i => updIdx (fun q => q.enqueue s) i qs) := by
  induction qs with
  | nil => simp [enqueueScan, lastRecognizingIdx]
  | cons q rest ih =>
    rcases h : lastRecognizingIdx rest s.source with _ | i
    · rw [h] at ih
      simp at ih
      by_cases hs : s.source ∈ q.sources
      · simp [enqueueScan, ih, lastRecognizingIdx, h, hs,
          EventQueue.enqueue_if_source_belongs, updIdx]
      · simp [enqueueScan, ih, lastRecognizingIdx, h, hs,
          EventQueue.enqueue_if_source_belongs]
    · rw [h] at ih
      simp at ih
      simp [enqueueScan, ih, lastRecognizingIdx, h, updIdx]

/-- C1: while the queue stack is nonempty, `enqueue_signal` appends the
signal to the innermost (most recently pushed) level whose recognized
sources contain the signal source, leaving all other levels unchanged (so
it is never delivered to a shallower level); when no level recognizes the
source, it appends to the active (innermost, last) queue. -/
theorem enqueue_signal_innermost_routing (qs : List EventQueue) (s : Signal)
    (hne : qs ≠ []) :
    (∀ i, lastRecognizingIdx qs s.source = some i →
        enqueueSignalQueues qs s = updIdx (fun q => q.enqueue s) i qs) ∧
    (lastRecognizingIdx qs s.source = none →
        enqueueSignalQueues qs s = updLast (fun q => q.enqueue s) qs) := by
  constructor
  · intro i hi
    unfold enqueueSignalQueues
    rw [enqueueScan_eq_idx, hi]
    rfl
  · intro hn
    unfold enqueueSignalQueues
    rw [enqueueScan_eq_idx, hn]
    rfl

/-- Witness for `enqueue_signal_innermost_routing`: a three-level stack in
which the middle level is the innermost one recognizing source 7 (the
outermost recognizes it too and is skipped), and a source 42 that no
level recognizes and therefore lands in the active queue. -/
theorem enqueue_signal_innermost_routing_witness :
    ([(⟨[], [7]⟩ : EventQueue), ⟨[], [5, 7]⟩, ⟨[], [9]⟩] ≠ []) ∧
    (lastRecognizingIdx [(⟨[], [7]⟩ : EventQueue), ⟨[], [5, 7]⟩, ⟨[], [9]⟩] 7 = some 1) ∧
    (enqueueSignalQueues [(⟨[], [7]⟩ : EventQueue), ⟨[], [5, 7]⟩, ⟨[], [9]⟩]
        ⟨"SignalC", 7, 0, (0, 0)⟩
      = updIdx (fun q => q.enqueue ⟨"SignalC", 7, 0, (0, 0)⟩) 1
          [(⟨[], [7]⟩ : EventQueue), ⟨[], [5, 7]⟩, ⟨[], [9]⟩]) ∧
    (lastRecognizingIdx [(⟨[], [7]⟩ : EventQueue), ⟨[], [5, 7]⟩, ⟨[], [9]⟩] 42 = none) ∧
    (enqueueSignalQueues [(⟨[], [7]⟩ : EventQueue), ⟨[], [5, 7]⟩, ⟨[], [9]⟩]
        ⟨"SignalC", 42, 0, (0, 0)⟩
      = updLast (fun q => q.enqueue ⟨"SignalC", 42, 0, (0, 0)⟩)
          [(⟨[], [7]⟩ : EventQueue), ⟨[], [5, 7]⟩, ⟨[], [9]⟩]) :=
  ⟨by decide, by decide,
   (enqueue_signal_innermost_routing [⟨[], [7]⟩, ⟨[], [5, 7]⟩, ⟨[], [9]⟩]
      ⟨"SignalC", 7, 0, (0, 0)⟩ (by decide)).1 1 (by decide),
   by decide,
   (enqueue_signal_innermost_routing [⟨[], [7]⟩, ⟨[], [5, 7]⟩, ⟨[], [9]⟩]
      ⟨"SignalC", 42, 0, (0, 0)⟩ (by decide)).2 (by decide)⟩

/-! ## MainLoop state (main_loop.py lines 29-207) -/

/-- `EventHandler` (main_loop.py lines 210-215): a callback and its
registered auxiliary data. The Python callable is embedded as an identity
tag together with its effect on the loop when invoked: the signals it
enqueues through `enqueue_signal` (handlers are collaborator code; the
spec, section 4.2 step 4, lets a handler enqueue further signals). -/
structure EventHandler where
  callback : Nat
  effect : Signal → Nat → List Signal
  data : Nat

/-- One recorded handler invocation: the callback tag, the dispatched
signal, and the auxiliary data passed alongside it. -/
structure Invocation where
  callback : Nat
  signal : Signal
  data : Nat
  deriving DecidableEq

/-- `MainLoop.__init__` (lines 35-41): the handler registry `_handlers`
(dict from signal kind to handler list), the queue stack `_event_queues`
whose last element is `_active_queue`, and the `_processed_signals`
ticket machine. -/
structure MainLoopState where
  handlers : List (String × List EventHandler)
  event_queues : List EventQueue
  processed_signals : TicketMachine

/-- `MainLoop.register_signal_handler` (lines 43-62): append an
EventHandler to the list kept for the signal kind, creating the list when
the kind is new. -/
def MainLoopState.register_signal_handler (st : MainLoopState) (kind : String)
    (h : EventHandler) : MainLoopState :=
  { st with handlers :=
      match alookup st.handlers kind with
      | none => st.handlers ++ [(kind, [h])]
      | some hs => aset st.handlers kind (hs ++ [h]) }

/-- `MainLoop.register_signal_source` (lines 64-70): add the source to the
active (last) queue. -/
def MainLoopState.register_signal_source (st : MainLoopState) (source : Nat) : MainLoopState :=
  { st with event_queues := updLast (fun q => q.add_source source) st.event_queues }

/-- `MainLoop.enqueue_signal` (lines 118-136) on the whole loop state. -/
def MainLoopState.enqueue_signal (st : MainLoopState) (s : Signal) : MainLoopState :=
  { st with event_queues := enqueueSignalQueues st.event_queues s }

/-- One handler call inside the `for` loop of `_process_signal` (lines
181-183): the callback runs (enqueuing whatever its effect says) and the
invocation is recorded. -/
def handlerStep (s : Signal) (acc : MainLoopState × List Invocation) (h : EventHandler) :
    MainLoopState × List Invocation :=
  ((h.effect s h.data).foldl MainLoopState.enqueue_signal acc.1,
   acc.2 ++ [⟨h.callback, s, h.data⟩])

/-- `MainLoop._process_signal` (lines 179-190): if the signal kind is a
key of the registry, call every handler registered for it in order;
otherwise, if the signal is an ExceptionSignal, `_raise_exception`
re-raises `exception_info[0]` from `exception_info[1]`. Returns the new
state, the invocations in order, and the re-raised pair when the raise
fires. -/
def MainLoopState.process_signal (st : MainLoopState) (s : Signal) :
    MainLoopState × List Invocation × Option (Nat × Nat) :=
  match alookup st.handlers s.kind with
  | some hs =>
    let r := hs.foldl (handlerStep s) (st, [])
    (r.1, r.2, none)
  | none =>
    if s.kind = exceptionSignalKind then (st, [], some s.exception_info)
    else (st, [], none)

/-- Pop the oldest signal of the active (last) queue; `none` when the
active queue is empty. -/
def dequeueQs : List EventQueue → Option (Signal × List EventQueue)
  | [] => none
  | [q] =>
    match q.queue with
    | [] => none
    | s :: rest => some (s, [{ q with queue := rest }])
  | q :: q2 :: qs =>
    (dequeueQs (q2 :: qs)).map fun r => (r.1, q :: r.2)

/-- `self._active_queue.get()` (line 168) together with the emptiness test
of line 167, on the loop state. -/
def MainLoopState.dequeue_active (st : MainLoopState) : Option (Signal × MainLoopState) :=
  (dequeueQs st.event_queues).map fun r => (r.1, { st with event_queues := r.2 })

/-- The contents of the active (last) queue. -/
def activeQueueList : List EventQueue → List Signal
  | [] => []
  | [q] => q.queue
  | _ :: q2 :: qs => activeQueueList (q2 :: qs)

/-- `MainLoop._register_wait_on_signal` (lines 192-196): -1 when not
waiting, otherwise take a ticket on the line named after the signal
kind. -/
def MainLoopState.register_wait_on_signal (st : MainLoopState) (ra : Option String) :
    Int × MainLoopState :=
  match ra with
  | none => (-1, st)
  | some k =>
    let r := st.processed_signals.take_ticket k
    (r.1, { st with processed_signals := r.2 })

/-- `MainLoop._mark_signal_processed` (lines 198-199): release every
outstanding ticket on the line of the signal kind. -/
def MainLoopState.mark_signal_processed (st : MainLoopState) (s : Signal) : MainLoopState :=
  { st with processed_signals := st.processed_signals.mark_line_to_go s.kind }

/-- `MainLoop._check_if_signal_processed` (lines 201-207): False when not
waiting; otherwise poll `check_ticket`. A KeyError from `check_ticket`
would propagate, modelled as `none`. -/
def MainLoopState.check_if_signal_processed (st : MainLoopState) (ra : Option String)
    (uid : Int) : Option (Bool × MainLoopState) :=
  match ra with
  | none => some (false, st)
  | some k =>
    match st.processed_signals.check_ticket k uid with
    | (CheckResult.keyError, _) => none
    | (CheckResult.returnedNone, tm) => some (false, { st with processed_signals := tm })
    | (CheckResult.returnedVal b, tm) => some (b, { st with processed_signals := tm })

/-- One loop iteration record: the dequeued signal together with the
ticket line of its kind in the state the handlers are invoked on (after
`_mark_signal_processed`, line 170, before `_process_signal`, line
173). -/
structure LogEntry where
  signal : Signal
  lineAtHandlers : List (Int × Bool)
  deriving DecidableEq

inductive PSOutcome where
  | returned (st : MainLoopState)
  | raisedExc (e : Nat × Nat) (st : MainLoopState)
  | raisedKeyError (st : MainLoopState)

/-- The `while` loop of `MainLoop.process_signals` (lines 167-177), with
explicit fuel since handlers may enqueue forever. Result `none` means the
iteration budget ran out with the loop still running; this includes the
blocking `self._active_queue.get()` on an empty queue while waiting,
which in this single-threaded model never yields a signal. The log
records every dequeued signal with the ticket line of its kind exactly as
the handlers observe it. -/
def psLoop (ra : Option String) (uid : Int) :
    Nat → MainLoopState → Option PSOutcome × List LogEntry
  | 0, _ => (none, [])
  | fuel + 1, st =>
    match st.dequeue_active with
    | none =>
      match ra with
      | none => (some (PSOutcome.returned st), [])
      | some _ => psLoop ra uid fuel st
    | some (s, st1) =>
      let st2 := st1.mark_signal_processed s
      let entry : LogEntry := ⟨s, (alookup st2.processed_signals.lines s.kind).getD []⟩
      match st2.process_signal s with
      | (st3, _, some e) => (some (PSOutcome.raisedExc e st3), [entry])
      | (st3, _, none) =>
        match st3.check_if_signal_processed ra uid with
        | none => (some (PSOutcome.raisedKeyError st3), [entry])
        | some (true, st4) => (some (PSOutcome.returned st4), [entry])
        | some (false, st4) =>
          let r := psLoop ra uid fuel st4
          (r.1, entry :: r.2)

/-- `MainLoop.process_signals` (lines 149-177): register the optional
wait ticket, then run the loop. -/
def MainLoopState.process_signals (st : MainLoopState) (ra : Option String) (fuel : Nat) :
    Option PSOutcome × List LogEntry :=
  psLoop ra (st.register_wait_on_signal ra).1 fuel (st.register_wait_on_signal ra).2

inductive CloseOutcome where
  | exitMainLoop
  | dispatchRaisedExc (e : Nat × Nat)
  | dispatchRaisedKeyError
  deriving DecidableEq

/-- `MainLoop.close_loop` (lines 100-116): drain via `process_signals()`
(an exception raised there propagates before any pop); then pop the queue
stack, point the active queue at the new last element and raise
ExitMainLoop (line 116); when the stack underflows, the IndexError of
line 112 is caught and ExitMainLoop is raised from the handler (line 114)
instead -- a single ExitMainLoop raise on either path. `none` when the
drain is still running at the given fuel. -/
def MainLoopState.close_loop (st : MainLoopState) (fuel : Nat) :
    Option (CloseOutcome × MainLoopState) :=
  match (st.process_signals none fuel).1 with
  | none => none
  | some (PSOutcome.raisedExc e st1) => some (CloseOutcome.dispatchRaisedExc e, st1)
  | some (PSOutcome.raisedKeyError st1) => some (CloseOutcome.dispatchRaisedKeyError, st1)
  | some (PSOutcome.returned st1) =>
    match st1.event_queues.dropLast.getLast? with
    | some _ =>
      some (CloseOutcome.exitMainLoop, { st1 with event_queues := st1.event_queues.dropLast })
    | none =>
      some (CloseOutcome.exitMainLoop, { st1 with event_queues := st1.event_queues.dropLast })

theorem dequeueQs_none_iff : ∀ qs : List EventQueue,
    dequeueQs qs = none ↔ activeQueueList qs = []
  | [] => by simp [dequeueQs, activeQueueList]
  | [q] => by
    cases hq : q.queue <;> simp [dequeueQs, activeQueueList, hq]
  | q :: q2 :: qs => by
    rw [show dequeueQs (q :: q2 :: qs)
          = (dequeueQs (q2 :: qs)).map (fun r => (r.1, q :: r.2)) from rfl]
    rw [show activeQueueList (q :: q2 :: qs) = activeQueueList (q2 :: qs) from rfl]
    rw [Option.map_eq_none']
    exact dequeueQs_none_iff (q2 :: qs)

theorem dequeue_active_parts (st : MainLoopState) (s : Signal) (st1 : MainLoopState)
    (h : st.dequeue_active = some (s, st1)) :
    st1.handlers = st.handlers ∧ st1.processed_signals = st.processed_signals := by
  unfold MainLoopState.dequeue_active at h
  rcases hq : dequeueQs st.event_queues with _ | r
  · rw [hq] at h
    simp at h
  · rw [hq] at h
    simp at h
    rw [← h.2]
    exact ⟨rfl, rfl⟩

theorem foldl_enqueue_parts (sigs : List Signal) (st : MainLoopState) :
    (sigs.foldl MainLoopState.enqueue_signal st).handlers = st.handlers ∧
    (sigs.foldl MainLoopState.enqueue_signal st).processed_signals = st.processed_signals := by
  induction sigs generalizing st with
  | nil => exact ⟨rfl, rfl⟩
  | cons s rest ih => simpa using ih (st.enqueue_signal s)

theorem handlerStep_fold (hs : List EventHandler) (s : Signal) (st : MainLoopState)
    (acc : List Invocation) :
    ((hs.foldl (handlerStep s) (st, acc)).1.handlers = st.handlers) ∧
    ((hs.foldl (handlerStep s) (st, acc)).1.processed_signals = st.processed_signals) ∧
    ((hs.foldl (handlerStep s) (st, acc)).2
        = acc ++ hs.map fun h => (⟨h.callback, s, h.data⟩ : Invocation)) := by
  induction hs generalizing st acc with
  | nil => exact ⟨rfl, rfl, by simp⟩
  | cons h rest ih =>
    have step : handlerStep s (st, acc) h
        = ((h.effect s h.data).foldl MainLoopState.enqueue_signal st,
           acc ++ [⟨h.callback, s, h.data⟩]) := rfl
    have ih2 := ih ((h.effect s h.data).foldl MainLoopState.enqueue_signal st)
      (acc ++ [⟨h.callback, s, h.data⟩])
    have hq := foldl_enqueue_parts (h.effect s h.data) st
    refine ⟨?_, ?_, ?_⟩
    · rw [List.foldl_cons, step]
      rw [ih2.1, hq.1]
    · rw [List.foldl_cons, step]
      rw [ih2.2.1, hq.2]
    · rw [List.foldl_cons, step]
      rw [ih2.2.2]
      simp

theorem process_signal_parts (st : MainLoopState) (s : Signal) :
    ((st.process_signal s).1.handlers = st.handlers) ∧
    ((st.process_signal s).1.processed_signals = st.processed_signals) := by
  unfold MainLoopState.process_signal
  rcases hk : alookup st.handlers s.kind with _ | hs
  · by_cases he : s.kind = exceptionSignalKind <;> simp [he]
  · have hf := handlerStep_fold hs s st []
    simp [hf.1, hf.2.1]

/-- The invocation list of `_process_signal` is exactly the per-kind
handler list, in order, paired with the signal and each handler data. -/
theorem process_signal_invocations (st : MainLoopState) (s : Signal) :
    (st.process_signal s).2.1
      = ((alookup st.handlers s.kind).getD []).map
          fun h => (⟨h.callback, s, h.data⟩ : Invocation) := by
  unfold MainLoopState.process_signal
  rcases hk : alookup st.handlers s.kind with _ | hs
  · by_cases he : s.kind = exceptionSignalKind <;> simp [he]
  · have hf := handlerStep_fold hs s st []
    simp [hf.2.2]

theorem alookup_append_single_other {α β : Type} [DecidableEq α] (l : List (α × β))
    (a k : α) (v : β) (h : a ≠ k) : alookup (l ++ [(a, v)]) k = alookup l k := by
  rcases hl : alookup l k with _ | b
  · rw [alookup_append_of_none _ _ _ hl]
    simp [alookup, h]
  · exact alookup_append_of_some _ _ _ _ hl

/-- A registration request passed to `register_signal_handler`. -/
structure Registration where
  kind : String
  callback : Nat
  effect : Signal → Nat → List Signal
  data : Nat

def Registration.handler (r : Registration) : EventHandler :=
  ⟨r.callback, r.effect, r.data⟩

/-- A sequence of `register_signal_handler` calls (lines 43-62). -/
def applyRegs (st : MainLoopState) (regs : List Registration) : MainLoopState :=
  regs.foldl (fun acc r => acc.register_signal_handler r.kind r.handler) st

theorem applyRegs_handlers_getD (regs : List Registration) (st : MainLoopState) (k : String) :
    (alookup (applyRegs st regs).handlers k).getD []
      = (alookup st.handlers k).getD []
        ++ (regs.filter (fun r => r.kind = k)).map Registration.handler := by
  induction regs generalizing st with
  | nil => simp [applyRegs]
  | cons r rest ih =>
    have hstep : applyRegs st (r :: rest)
        = applyRegs (st.register_signal_handler r.kind r.handler) rest := rfl
    rw [hstep, ih]
    by_cases hrk : r.kind = k
    · subst hrk
      rcases hl : alookup st.handlers r.kind with _ | hs
      · have hreg : alookup (st.register_signal_handler r.kind r.handler).handlers r.kind
            = some [r.handler] := by
          simp only [MainLoopState.register_signal_handler, hl]
          rw [alookup_append_of_none _ _ _ hl]
          simp [alookup]
        rw [hreg]
        simp [List.filter_cons]
      · have hreg : alookup (st.register_signal_handler r.kind r.handler).handlers r.kind
            = some (hs ++ [r.handler]) := by
          simp only [MainLoopState.register_signal_handler, hl]
          exact alookup_aset_self _ _ _
        rw [hreg]
        simp [List.filter_cons]
    · have hreg : alookup (st.register_signal_handler r.kind r.handler).handlers k
          = alookup st.handlers k := by
        simp only [MainLoopState.register_signal_handler]
        rcases hl : alookup st.handlers r.kind with _ | hs
        · exact alookup_append_single_other _ _ _ _ hrk
        · exact alookup_aset_other _ _ _ _ hrk
      rw [hreg]
      simp [List.filter_cons, hrk]

/-- C5: for every dispatched signal, exactly the handlers registered for
the exact kind of the signal fire, in registration order, each invoked
with the signal and its registered auxiliary data; registrations for any
other kind contribute nothing (kinds are opaque tags compared for
equality, so there is no hierarchy matching). -/
theorem handlers_exact_kind_in_order (regs : List Registration) (s : Signal)
    (qs : List EventQueue) (tm : TicketMachine) :
    ((applyRegs ⟨[], qs, tm⟩ regs).process_signal s).2.1
      = (regs.filter fun r => r.kind = s.kind).map
          fun r => (⟨r.callback, s, r.data⟩ : Invocation) := by
  rw [process_signal_invocations, applyRegs_handlers_getD]
  have h0 : (alookup (MainLoopState.mk [] qs tm).handlers s.kind).getD [] = [] := rfl
  rw [h0]
  simp [Registration.handler, List.map_map, Function.comp]

/-- C7: a dispatched ExceptionSignal re-raises the carried failure, with
the original cause preserved (`raise exception_info[0] from
exception_info[1]`, line 190), exactly when no handler is registered for
that kind; when a handler list is registered, the handlers receive the
signal and nothing is re-raised by the loop. -/
theorem exception_signal_reraise_iff (st : MainLoopState) (s : Signal)
    (hk : s.kind = exceptionSignalKind) :
    (alookup st.handlers s.kind = none ↔ (st.process_signal s).2.2 = some s.exception_info) ∧
    (∀ hs, alookup st.handlers s.kind = some hs →
        (st.process_signal s).2.2 = none ∧
        (st.process_signal s).2.1 = hs.map fun h => (⟨h.callback, s, h.data⟩ : Invocation)) := by
  constructor
  · constructor
    · intro h
      rw [hk] at h
      simp [MainLoopState.process_signal, h, hk]
    · intro h
      rcases hl : alookup st.handlers s.kind with _ | hs
      · rfl
      · unfold MainLoopState.process_signal at h
        rw [hl] at h
        simp at h
  · intro hs hl
    constructor
    · simp [MainLoopState.process_signal, hl]
    · rw [process_signal_invocations, hl]
      simp

/-- Witness for `exception_signal_reraise_iff`: an ExceptionSignal
carrying the pair (3, 4), dispatched on a loop with an empty registry, is
re-raised with exactly that pair. -/
theorem exception_signal_reraise_iff_witness :
    ((⟨"ExceptionSignal", 0, 0, (3, 4)⟩ : Signal).kind = exceptionSignalKind) ∧
    ((MainLoopState.process_signal ⟨[], [⟨[], []⟩], ⟨[], 0⟩⟩
        ⟨"ExceptionSignal", 0, 0, (3, 4)⟩).2.2 = some (3, 4)) :=
  ⟨rfl,
   ((exception_signal_reraise_iff ⟨[], [⟨[], []⟩], ⟨[], 0⟩⟩
      ⟨"ExceptionSignal", 0, 0, (3, 4)⟩ rfl).1).mp rfl⟩

/-! ## Iteration lemmas for the process_signals loop -/

theorem psLoop_succ_empty_none (uid : Int) (fuel : Nat) (st : MainLoopState)
    (h : st.dequeue_active = none) :
    psLoop none uid (fuel + 1) st = (some (PSOutcome.returned st), []) := by
  simp [psLoop, h]

theorem psLoop_succ_empty_some (uid : Int) (fuel : Nat) (st : MainLoopState) (k : String)
    (h : st.dequeue_active = none) :
    psLoop (some k) uid (fuel + 1) st = psLoop (some k) uid fuel st := by
  simp [psLoop, h]

theorem psLoop_succ_raised (ra : Option String) (uid : Int) (fuel : Nat) (st : MainLoopState)
    (s : Signal) (st1 st3 : MainLoopState) (invs : List Invocation) (e : Nat × Nat)
    (hdq : st.dequeue_active = some (s, st1))
    (hps : (st1.mark_signal_processed s).process_signal s = (st3, invs, some e)) :
    psLoop ra uid (fuel + 1) st
      = (some (PSOutcome.raisedExc e st3),
         [⟨s, (alookup (st1.mark_signal_processed s).processed_signals.lines s.kind).getD []⟩]) := by
  simp [psLoop, hdq, hps]

theorem psLoop_succ_keyerr (ra : Option String) (uid : Int) (fuel : Nat) (st : MainLoopState)
    (s : Signal) (st1 st3 : MainLoopState) (invs : List Invocation)
    (hdq : st.dequeue_active = some (s, st1))
    (hps : (st1.mark_signal_processed s).process_signal s = (st3, invs, none))
    (hck : st3.check_if_signal_processed ra uid = none) :
    psLoop ra uid (fuel + 1) st
      = (some (PSOutcome.raisedKeyError st3),
         [⟨s, (alookup (st1.mark_signal_processed s).processed_signals.lines s.kind).getD []⟩]) := by
  simp [psLoop, hdq, hps, hck]

theorem psLoop_succ_found (ra : Option String) (uid : Int) (fuel : Nat) (st : MainLoopState)
    (s : Signal) (st1 st3 st4 : MainLoopState) (invs : List Invocation)
    (hdq : st.dequeue_active = some (s, st1))
    (hps : (st1.mark_signal_processed s).process_signal s = (st3, invs, none))
    (hck : st3.check_if_signal_processed ra uid = some (true, st4)) :
    psLoop ra uid (fuel + 1) st
      = (some (PSOutcome.returned st4),
         [⟨s, (alookup (st1.mark_signal_processed s).processed_signals.lines s.kind).getD []⟩]) := by
  simp [psLoop, hdq, hps, hck]

theorem psLoop_succ_continue (ra : Option String) (uid : Int) (fuel : Nat) (st : MainLoopState)
    (s : Signal) (st1 st3 st4 : MainLoopState) (invs : List Invocation)
    (hdq : st.dequeue_active = some (s, st1))
    (hps : (st1.mark_signal_processed s).process_signal s = (st3, invs, none))
    (hck : st3.check_if_signal_processed ra uid = some (false, st4)) :
    psLoop ra uid (fuel + 1) st
      = ((psLoop ra uid fuel st4).1,
         ⟨s, (alookup (st1.mark_signal_processed s).processed_signals.lines s.kind).getD []⟩
           :: (psLoop ra uid fuel st4).2) := by
  simp [psLoop, hdq, hps, hck]

theorem mark_signal_parts (st : MainLoopState) (s : Signal) :
    (st.mark_signal_processed s).handlers = st.handlers ∧
    (st.mark_signal_processed s).event_queues = st.event_queues := ⟨rfl, rfl⟩

theorem check_if_none_eq (st : MainLoopState) (uid : Int) :
    st.check_if_signal_processed none uid = some (false, st) := rfl

theorem check_if_false (st : MainLoopState) (k : String) (uid : Int)
    (h : ticketFlag st.processed_signals k uid = some false) :
    st.check_if_signal_processed (some k) uid = some (false, st) := by
  have hc := check_of_flag_false st.processed_signals k uid h
  simp [MainLoopState.check_if_signal_processed, hc]

theorem ticketFlag_mark_other (tm : TicketMachine) (L L2 : String) (i : Int) (h : L2 ≠ L) :
    ticketFlag (tm.mark_line_to_go L2) L i = ticketFlag tm L i := by
  unfold ticketFlag TicketMachine.mark_line_to_go
  rcases hL2 : alookup tm.lines L2 with _ | ln2
  · rfl
  · simp [alookup_aset_other _ _ _ _ h]

theorem mark_line_all_true (tm : TicketMachine) (L : String) :
    ∀ p ∈ (alookup (tm.mark_line_to_go L).lines L).getD ([] : List (Int × Bool)), p.2 = true := by
  unfold TicketMachine.mark_line_to_go
  rcases hL : alookup tm.lines L with _ | ln
  · intro p hp
    rw [hL] at hp
    simp at hp
  · intro p hp
    rw [show (⟨aset tm.lines L (ln.map fun q => (q.1, true)), tm.counter⟩ : TicketMachine).lines
          = aset tm.lines L (ln.map fun q => (q.1, true)) from rfl] at hp
    rw [alookup_aset_self] at hp
    have hp2 : p ∈ ln.map fun q => (q.1, true) := hp
    rcases List.mem_map.mp hp2 with ⟨q, _, hqe⟩
    rw [← hqe]

theorem process_signal_no_raise (st : MainLoopState) (s : Signal)
    (h : s.kind ≠ exceptionSignalKind) : (st.process_signal s).2.2 = none := by
  unfold MainLoopState.process_signal
  rcases hl : alookup st.handlers s.kind with _ | hs
  · simp [h]
  · simp

theorem dequeue_active_none_iff (st : MainLoopState) :
    st.dequeue_active = none ↔ activeQueueList st.event_queues = [] := by
  unfold MainLoopState.dequeue_active
  rw [Option.map_eq_none']
  exact dequeueQs_none_iff st.event_queues

theorem psLoop_none_returned : ∀ (fuel : Nat) (st : MainLoopState) (uid : Int)
    (st2 : MainLoopState),
    (psLoop none uid fuel st).1 = some (PSOutcome.returned st2) →
    activeQueueList st2.event_queues = []
  | 0, st, uid, st2 => by simp [psLoop]
  | fuel + 1, st, uid, st2 => by
    intro h
    rcases hdq : st.dequeue_active with _ | ⟨s, st1⟩
    · rw [psLoop_succ_empty_none uid fuel st hdq] at h
      simp at h
      rw [← h]
      exact (dequeue_active_none_iff st).mp hdq
    · rcases hps : (st1.mark_signal_processed s).process_signal s with ⟨st3, invs, raised⟩
      cases raised with
      | some e =>
        rw [psLoop_succ_raised none uid fuel st s st1 st3 invs e hdq hps] at h
        simp at h
      | none =>
        rw [psLoop_succ_continue none uid fuel st s st1 st3 st3 invs hdq hps
          (check_if_none_eq st3 uid)] at h
        exact psLoop_none_returned fuel st3 uid st2 h

theorem psLoop_log_released : ∀ (fuel : Nat) (st : MainLoopState) (ra : Option String)
    (uid : Int), ∀ e ∈ (psLoop ra uid fuel st).2, ∀ p ∈ e.lineAtHandlers, p.2 = true
  | 0, st, ra, uid => by simp [psLoop]
  | fuel + 1, st, ra, uid => by
    intro e he p hp
    rcases hdq : st.dequeue_active with _ | ⟨s, st1⟩
    · cases ra with
      | none =>
        rw [psLoop_succ_empty_none uid fuel st hdq] at he
        simp at he
      | some k =>
        rw [psLoop_succ_empty_some uid fuel st k hdq] at he
        exact psLoop_log_released fuel st (some k) uid e he p hp
    · rcases hps : (st1.mark_signal_processed s).process_signal s with ⟨st3, invs, raised⟩
      have hmark : ∀ p2 ∈ (alookup (st1.mark_signal_processed s).processed_signals.lines
          s.kind).getD ([] : List (Int × Bool)), p2.2 = true :=
        mark_line_all_true st1.processed_signals s.kind
      cases raised with
      | some ex =>
        rw [psLoop_succ_raised ra uid fuel st s st1 st3 invs ex hdq hps] at he
        simp at he
        rw [he] at hp
        exact hmark p hp
      | none =>
        rcases hck : st3.check_if_signal_processed ra uid with _ | ⟨b, st4⟩
        · rw [psLoop_succ_keyerr ra uid fuel st s st1 st3 invs hdq hps hck] at he
          simp at he
          rw [he] at hp
          exact hmark p hp
        · cases b with
          | true =>
            rw [psLoop_succ_found ra uid fuel st s st1 st3 st4 invs hdq hps hck] at he
            simp at he
            rw [he] at hp
            exact hmark p hp
          | false =>
            rw [psLoop_succ_continue ra uid fuel st s st1 st3 st4 invs hdq hps hck] at he
            simp at he
            rcases he with he | he
            · rw [he] at hp
              exact hmark p hp
            · exact psLoop_log_released fuel st4 ra uid e he p hp

theorem psLoop_wait_returned : ∀ (fuel : Nat) (st : MainLoopState) (uid : Int) (k : String)
    (st2 : MainLoopState),
    ticketFlag st.processed_signals k uid = some false →
    (psLoop (some k) uid fuel st).1 = some (PSOutcome.returned st2) →
    ∃ e ∈ (psLoop (some k) uid fuel st).2, e.signal.kind = k
  | 0, st, uid, k, st2 => by
    intro hflag h
    simp [psLoop] at h
  | fuel + 1, st, uid, k, st2 => by
    intro hflag h
    rcases hdq : st.dequeue_active with _ | ⟨s, st1⟩
    · rw [psLoop_succ_empty_some uid fuel st k hdq] at h ⊢
      exact psLoop_wait_returned fuel st uid k st2 hflag h
    · rcases hps : (st1.mark_signal_processed s).process_signal s with ⟨st3, invs, raised⟩
      by_cases hsk : s.kind = k
      · cases raised with
        | some ex =>
          rw [psLoop_succ_raised (some k) uid fuel st s st1 st3 invs ex hdq hps]
          exact ⟨⟨s, (alookup (st1.mark_signal_processed
            s).processed_signals.lines s.kind).getD []⟩, by simp, hsk⟩
        | none =>
          rcases hck : st3.check_if_signal_processed (some k) uid with _ | ⟨b, st4⟩
          · rw [psLoop_succ_keyerr (some k) uid fuel st s st1 st3 invs hdq hps hck]
            exact ⟨⟨s, (alookup (st1.mark_signal_processed
              s).processed_signals.lines s.kind).getD []⟩, by simp, hsk⟩
          · cases b with
            | true =>
              rw [psLoop_succ_found (some k) uid fuel st s st1 st3 st4 invs hdq hps hck]
              exact ⟨⟨s, (alookup (st1.mark_signal_processed
                s).processed_signals.lines s.kind).getD []⟩, by simp, hsk⟩
            | false =>
              rw [psLoop_succ_continue (some k) uid fuel st s st1 st3 st4 invs hdq hps hck]
              refine ⟨⟨s, (alookup (st1.mark_signal_processed
                s).processed_signals.lines s.kind).getD []⟩, by simp, hsk⟩
      · have hflag1 : ticketFlag st1.processed_signals k uid = some false := by
          rw [(dequeue_active_parts st s st1 hdq).2]
          exact hflag
        have hflag2 : ticketFlag (st1.mark_signal_processed s).processed_signals k uid
            = some false := by
          show ticketFlag (st1.processed_signals.mark_line_to_go s.kind) k uid = some false
          rw [ticketFlag_mark_other _ _ _ _ hsk]
          exact hflag1
        have hps1 := (process_signal_parts (st1.mark_signal_processed s) s).2
        rw [hps] at hps1
        have hflag3 : ticketFlag st3.processed_signals k uid = some false := by
          have h3 : st3.processed_signals
              = (st1.mark_signal_processed s).processed_signals := hps1
          rw [h3]
          exact hflag2
        cases raised with
        | some ex =>
          rw [psLoop_succ_raised (some k) uid fuel st s st1 st3 invs ex hdq hps] at h
          simp at h
        | none =>
          have hck := check_if_false st3 k uid hflag3
          rw [psLoop_succ_continue (some k) uid fuel st s st1 st3 st3 invs hdq hps hck] at h ⊢
          obtain ⟨e, he, hek⟩ := psLoop_wait_returned fuel st3 uid k st2 hflag3 h
          exact ⟨e, List.mem_cons_of_mem _ he, hek⟩

/-! ## States with no waited-for kind and no exception signals -/

/-- No signal of kind K and no ExceptionSignal pending in any queue. -/
def goodQueues (K : String) (qs : List EventQueue) : Prop :=
  ∀ q ∈ qs, ∀ t ∈ q.queue, t.kind ≠ K ∧ t.kind ≠ exceptionSignalKind

/-- No registered handler ever enqueues a signal of kind K or an
ExceptionSignal. -/
def goodEffects (K : String) (hl : List (String × List EventHandler)) : Prop :=
  ∀ p ∈ hl, ∀ h ∈ p.2, ∀ s d, ∀ t ∈ h.effect s d,
    t.kind ≠ K ∧ t.kind ≠ exceptionSignalKind

def goodState (K : String) (st : MainLoopState) : Prop :=
  goodQueues K st.event_queues ∧ goodEffects K st.handlers

theorem updIdx_mem {α : Type} (f : α → α) : ∀ (i : Nat) (l : List α) (x : α),
    x ∈ updIdx f i l → x ∈ l ∨ ∃ y ∈ l, x = f y
  | _, [], x => by
    intro h
    simp [updIdx] at h
  | 0, a :: rest, x => by
    intro h
    rw [show updIdx f 0 (a :: rest) = f a :: rest from rfl] at h
    rcases List.mem_cons.mp h with h | h
    · right
      exact ⟨a, List.mem_cons_self a rest, h⟩
    · left
      exact List.mem_cons_of_mem a h
  | i + 1, a :: rest, x => by
    intro h
    rw [show updIdx f (i + 1) (a :: rest) = a :: updIdx f i rest from rfl] at h
    rcases List.mem_cons.mp h with h | h
    · left
      rw [h]
      exact List.mem_cons_self a rest
    · rcases updIdx_mem f i rest x h with h2 | ⟨y, hy, he⟩
      · left
        exact List.mem_cons_of_mem a h2
      · right
        exact ⟨y, List.mem_cons_of_mem a hy, he⟩

theorem updLast_mem {α : Type} (f : α → α) : ∀ (l : List α) (x : α),
    x ∈ updLast f l → x ∈ l ∨ ∃ y ∈ l, x = f y
  | [], x => by
    intro h
    simp [updLast] at h
  | [a], x => by
    intro h
    rw [show updLast f [a] = [f a] from rfl] at h
    simp at h
    right
    exact ⟨a, by simp, h⟩
  | a :: b :: rest, x => by
    intro h
    rw [show updLast f (a :: b :: rest) = a :: updLast f (b :: rest) from rfl] at h
    rcases List.mem_cons.mp h with h | h
    · left
      rw [h]
      exact List.mem_cons_self _ _
    · rcases updLast_mem f (b :: rest) x h with h2 | ⟨y, hy, he⟩
      · left
        exact List.mem_cons_of_mem a h2
      · right
        exact ⟨y, List.mem_cons_of_mem a hy, he⟩

theorem enqueue_queue_mem (q : EventQueue) (s t : Signal) (h : t ∈ (q.enqueue s).queue) :
    t ∈ q.queue ∨ t = s := by
  unfold EventQueue.enqueue at h
  simpa using h

theorem enqueueSignalQueues_mem (qs : List EventQueue) (s : Signal) (q2 : EventQueue)
    (hq2 : q2 ∈ enqueueSignalQueues qs s) (t : Signal) (ht : t ∈ q2.queue) :
    (∃ q ∈ qs, t ∈ q.queue) ∨ t = s := by
  unfold enqueueSignalQueues at hq2
  rw [enqueueScan_eq_idx] at hq2
  rcases hidx : lastRecognizingIdx qs s.source with _ | i
  · rw [hidx] at hq2
    simp at hq2
    rcases updLast_mem _ qs q2 hq2 with h | ⟨y, hy, he⟩
    · exact Or.inl ⟨q2, h, ht⟩
    · rw [he] at ht
      rcases enqueue_queue_mem y s t ht with h2 | h2
      · exact Or.inl ⟨y, hy, h2⟩
      · exact Or.inr h2
  · rw [hidx] at hq2
    simp at hq2
    rcases updIdx_mem _ i qs q2 hq2 with h | ⟨y, hy, he⟩
    · exact Or.inl ⟨q2, h, ht⟩
    · rw [he] at ht
      rcases enqueue_queue_mem y s t ht with h2 | h2
      · exact Or.inl ⟨y, hy, h2⟩
      · exact Or.inr h2

theorem enqueue_signal_goodQueues (K : String) (st : MainLoopState) (t : Signal)
    (ht : t.kind ≠ K ∧ t.kind ≠ exceptionSignalKind)
    (h : goodQueues K st.event_queues) :
    goodQueues K (st.enqueue_signal t).event_queues := by
  intro q2 hq2 u hu
  rcases enqueueSignalQueues_mem st.event_queues t q2 hq2 u hu with ⟨q, hq, hu2⟩ | he
  · exact h q hq u hu2
  · rw [he]
    exact ht

theorem foldl_enqueue_goodQueues (K : String) (sigs : List Signal) (st : MainLoopState)
    (hsigs : ∀ t ∈ sigs, t.kind ≠ K ∧ t.kind ≠ exceptionSignalKind)
    (h : goodQueues K st.event_queues) :
    goodQueues K (sigs.foldl MainLoopState.enqueue_signal st).event_queues := by
  induction sigs generalizing st with
  | nil => exact h
  | cons t rest ih =>
    exact ih (st.enqueue_signal t)
      (fun u hu => hsigs u (List.mem_cons_of_mem t hu))
      (enqueue_signal_goodQueues K st t (hsigs t (List.mem_cons_self t rest)) h)

theorem handlerStep_fold_goodQueues (K : String) (hs : List EventHandler) (s : Signal)
    (st : MainLoopState) (acc : List Invocation)
    (hhs : ∀ h ∈ hs, ∀ s2 d, ∀ t ∈ h.effect s2 d, t.kind ≠ K ∧ t.kind ≠ exceptionSignalKind)
    (h : goodQueues K st.event_queues) :
    goodQueues K ((hs.foldl (handlerStep s) (st, acc)).1).event_queues := by
  induction hs generalizing st acc with
  | nil => exact h
  | cons hd rest ih =>
    rw [List.foldl_cons]
    exact ih ((hd.effect s hd.data).foldl MainLoopState.enqueue_signal st)
      (acc ++ [⟨hd.callback, s, hd.data⟩])
      (fun h2 hh2 => hhs h2 (List.mem_cons_of_mem hd hh2))
      (foldl_enqueue_goodQueues K _ st (hhs hd (List.mem_cons_self hd rest) s hd.data) h)

theorem process_signal_good (K : String) (st : MainLoopState) (s : Signal)
    (hgood : goodState K st) : goodState K (st.process_signal s).1 := by
  obtain ⟨hq, hh⟩ := hgood
  constructor
  · unfold MainLoopState.process_signal
    rcases hl : alookup st.handlers s.kind with _ | hs
    · by_cases he : s.kind = exceptionSignalKind <;> simp [he] <;> exact hq
    · simp
      exact handlerStep_fold_goodQueues K hs s st []
        (fun h2 hh2 s2 d t htm => hh (s.kind, hs) (alookup_mem _ _ _ hl) h2 hh2 s2 d t htm)
        hq
  · rw [(process_signal_parts st s).1]
    exact hh

theorem dequeueQs_mem : ∀ (qs : List EventQueue) (s : Signal) (qs2 : List EventQueue),
    dequeueQs qs = some (s, qs2) →
    (∃ q ∈ qs, s ∈ q.queue) ∧ ∀ q2 ∈ qs2, ∀ t ∈ q2.queue, ∃ q ∈ qs, t ∈ q.queue
  | [], s, qs2 => by
    intro h
    simp [dequeueQs] at h
  | [q], s, qs2 => by
    intro h
    rcases hq : q.queue with _ | ⟨s0, rest⟩
    · simp [dequeueQs, hq] at h
    · simp [dequeueQs, hq] at h
      obtain ⟨hs, hqs2⟩ := h
      constructor
      · refine ⟨q, by simp, ?_⟩
        rw [hq, ← hs]
        exact List.mem_cons_self _ _
      · intro q2 hq2 t ht
        rw [← hqs2] at hq2
        simp at hq2
        rw [hq2] at ht
        simp at ht
        refine ⟨q, by simp, ?_⟩
        rw [hq]
        exact List.mem_cons_of_mem _ ht
  | q :: q2 :: qs, s, qs2 => by
    intro h
    rw [show dequeueQs (q :: q2 :: qs)
          = (dequeueQs (q2 :: qs)).map (fun r => (r.1, q :: r.2)) from rfl] at h
    rcases hr : dequeueQs (q2 :: qs) with _ | ⟨s1, qs1⟩
    · rw [hr] at h
      simp at h
    · rw [hr] at h
      simp at h
      obtain ⟨hs, hqs2⟩ := h
      obtain ⟨⟨qf, hqf, hsf⟩, hrest⟩ := dequeueQs_mem (q2 :: qs) s1 qs1 hr
      constructor
      · refine ⟨qf, List.mem_cons_of_mem q hqf, ?_⟩
        rw [← hs]
        exact hsf
      · intro q3 hq3 t ht
        rw [← hqs2] at hq3
        rcases List.mem_cons.mp hq3 with h3 | h3
        · exact ⟨q, List.mem_cons_self _ _, by rw [h3] at ht; exact ht⟩
        · obtain ⟨q4, hq4, ht4⟩ := hrest q3 h3 t ht
          exact ⟨q4, List.mem_cons_of_mem q hq4, ht4⟩

theorem dequeue_good (K : String) (st : MainLoopState) (s : Signal) (st1 : MainLoopState)
    (hdq : st.dequeue_active = some (s, st1)) (hq : goodQueues K st.event_queues) :
    goodQueues K st1.event_queues ∧ (s.kind ≠ K ∧ s.kind ≠ exceptionSignalKind) := by
  unfold MainLoopState.dequeue_active at hdq
  rcases hr : dequeueQs st.event_queues with _ | ⟨s1, qs1⟩
  · rw [hr] at hdq
    simp at hdq
  · rw [hr] at hdq
    simp at hdq
    obtain ⟨hs, hst1⟩ := hdq
    obtain ⟨⟨qf, hqf, hsf⟩, hrest⟩ := dequeueQs_mem st.event_queues s1 qs1 hr
    constructor
    · rw [← hst1]
      intro q2 hq2 t ht
      obtain ⟨q, hqm, htm⟩ := hrest q2 hq2 t ht
      exact hq q hqm t htm
    · rw [← hs]
      exact hq qf hqf s1 hsf

theorem psLoop_wait_runs : ∀ (fuel : Nat) (st : MainLoopState) (uid : Int) (k : String),
    goodState k st → ticketFlag st.processed_signals k uid = some false →
    (psLoop (some k) uid fuel st).1 = none
  | 0, st, uid, k => by
    intro hgood hflag
    simp [psLoop]
  | fuel + 1, st, uid, k => by
    intro hgood hflag
    rcases hdq : st.dequeue_active with _ | ⟨s, st1⟩
    · rw [psLoop_succ_empty_some uid fuel st k hdq]
      exact psLoop_wait_runs fuel st uid k hgood hflag
    · obtain ⟨hq1, hsgood⟩ := dequeue_good k st s st1 hdq hgood.1
      have hh1 : goodEffects k st1.handlers := by
        rw [(dequeue_active_parts st s st1 hdq).1]
        exact hgood.2
      have hflag1 : ticketFlag st1.processed_signals k uid = some false := by
        rw [(dequeue_active_parts st s st1 hdq).2]
        exact hflag
      have hgood2 : goodState k (st1.mark_signal_processed s) := ⟨hq1, hh1⟩
      have hflag2 : ticketFlag (st1.mark_signal_processed s).processed_signals k uid
          = some false := by
        show ticketFlag (st1.processed_signals.mark_line_to_go s.kind) k uid = some false
        rw [ticketFlag_mark_other _ _ _ _ hsgood.1]
        exact hflag1
      rcases hps : (st1.mark_signal_processed s).process_signal s with ⟨st3, invs, raised⟩
      have hnr := process_signal_no_raise (st1.mark_signal_processed s) s hsgood.2
      rw [hps] at hnr
      cases raised with
      | some ex => simp at hnr
      | none =>
        have hgood3 : goodState k st3 := by
          have hg := process_signal_good k (st1.mark_signal_processed s) s hgood2
          rw [hps] at hg
          exact hg
        have hflag3 : ticketFlag st3.processed_signals k uid = some false := by
          have hp3 := (process_signal_parts (st1.mark_signal_processed s) s).2
          rw [hps] at hp3
          rw [show st3.processed_signals
              = (st1.mark_signal_processed s).processed_signals from hp3]
          exact hflag2
        have hck := check_if_false st3 k uid hflag3
        rw [psLoop_succ_continue (some k) uid fuel st s st1 st3 st3 invs hdq hps hck]
        exact psLoop_wait_runs fuel st3 uid k hgood3 hflag3

/-- C2: semantics of `process_signals(return_after)`. Without
`return_after`, the call returns exactly when the active queue becomes
empty: any normal return leaves the active queue of the final state
empty, and on an already empty active queue it returns at once, without
waiting and without touching the state. With `return_after = K`, a normal
return happens only after a signal of kind K has been dequeued (the run
log contains a K-kind entry, whose iteration also releases and consumes
the registered wait ticket), while on a state whose queues hold only
signals of other kinds and whose handlers keep producing only such
signals, the loop dispatches them indefinitely and never returns,
whatever the iteration budget. -/
theorem process_signals_wait_semantics :
    (∀ (st : MainLoopState) (fuel : Nat) (st2 : MainLoopState),
        (st.process_signals none fuel).1 = some (PSOutcome.returned st2) →
        activeQueueList st2.event_queues = []) ∧
    (∀ (st : MainLoopState) (fuel : Nat),
        activeQueueList st.event_queues = [] →
        st.process_signals none (fuel + 1) = (some (PSOutcome.returned st), [])) ∧
    (∀ (st : MainLoopState) (k : String) (fuel : Nat) (st2 : MainLoopState),
        (st.process_signals (some k) fuel).1 = some (PSOutcome.returned st2) →
        ∃ e ∈ (st.process_signals (some k) fuel).2, e.signal.kind = k) ∧
    (∀ (st : MainLoopState) (k : String) (fuel : Nat),
        goodState k st → (st.process_signals (some k) fuel).1 = none) := by
  refine ⟨?_, ?_, ?_, ?_⟩
  · intro st fuel st2 h
    exact psLoop_none_returned fuel st (-1) st2 h
  · intro st fuel h
    show psLoop none (-1) (fuel + 1) st = (some (PSOutcome.returned st), [])
    exact psLoop_succ_empty_none (-1) fuel st ((dequeue_active_none_iff st).mpr h)
  · intro st k fuel st2 h
    have hflag : ticketFlag (st.register_wait_on_signal (some k)).2.processed_signals k
        (st.register_wait_on_signal (some k)).1 = some false := by
      show ticketFlag (st.processed_signals.take_ticket k).2 k
          (st.processed_signals.take_ticket k).1 = some false
      rw [take_ticket_fst]
      exact ticketFlag_take_self st.processed_signals k
    exact psLoop_wait_returned fuel (st.register_wait_on_signal (some k)).2
      (st.register_wait_on_signal (some k)).1 k st2 hflag h
  · intro st k fuel hgood
    have hflag : ticketFlag (st.register_wait_on_signal (some k)).2.processed_signals k
        (st.register_wait_on_signal (some k)).1 = some false := by
      show ticketFlag (st.processed_signals.take_ticket k).2 k
          (st.processed_signals.take_ticket k).1 = some false
      rw [take_ticket_fst]
      exact ticketFlag_take_self st.processed_signals k
    have hgood2 : goodState k (st.register_wait_on_signal (some k)).2 := ⟨hgood.1, hgood.2⟩
    exact psLoop_wait_runs fuel (st.register_wait_on_signal (some k)).2
      (st.register_wait_on_signal (some k)).1 k hgood2 hflag

/-- Witness for `process_signals_wait_semantics`: an empty active queue
returns immediately; a one-signal drain ends with the active queue empty;
a wait for kind B returns with the B signal in the dequeued log; a queue
holding only kind A with no handlers never lets a wait for kind B
return. -/
theorem process_signals_wait_semantics_witness :
    (activeQueueList ([(⟨[], []⟩ : EventQueue)]) = [] ∧
      MainLoopState.process_signals ⟨[], [⟨[], []⟩], ⟨[], 0⟩⟩ none 1
        = (some (PSOutcome.returned ⟨[], [⟨[], []⟩], ⟨[], 0⟩⟩), [])) ∧
    (activeQueueList
        (⟨[], [⟨[], []⟩], ⟨[], 0⟩⟩ : MainLoopState).event_queues = []) ∧
    (∃ e ∈ (MainLoopState.process_signals
        ⟨[], [⟨[⟨"B", 0, 0, (0, 0)⟩], []⟩], ⟨[], 0⟩⟩ (some "B") 1).2,
      e.signal.kind = "B") ∧
    ((MainLoopState.process_signals
        ⟨[], [⟨[⟨"A", 0, 0, (0, 0)⟩], []⟩], ⟨[], 0⟩⟩ (some "B") 5).1 = none) :=
  ⟨⟨by decide,
    process_signals_wait_semantics.2.1 ⟨[], [⟨[], []⟩], ⟨[], 0⟩⟩ 0 (by decide)⟩,
   process_signals_wait_semantics.1 ⟨[], [⟨[], []⟩], ⟨[], 0⟩⟩ 1
     ⟨[], [⟨[], []⟩], ⟨[], 0⟩⟩ (by rfl),
   process_signals_wait_semantics.2.2.1 ⟨[], [⟨[⟨"B", 0, 0, (0, 0)⟩], []⟩], ⟨[], 0⟩⟩ "B" 1
     ⟨[], [⟨[], []⟩], ⟨[("B", [])], 1⟩⟩ (by rfl),
   process_signals_wait_semantics.2.2.2 ⟨[], [⟨[⟨"A", 0, 0, (0, 0)⟩], []⟩], ⟨[], 0⟩⟩ "B" 5
     ⟨by
        intro q hq t ht
        simp at hq
        subst hq
        simp at ht
        subst ht
        exact ⟨by decide, by decide⟩,
      fun p hp => absurd hp (List.not_mem_nil p)⟩⟩

/-- C3: in every iteration of the loop, the dequeued signal releases all
outstanding wait tickets of its kind before any handler for it is
invoked: every entry of the dequeue log records the ticket line of the
signal kind as the handlers observe it (the state after
`_mark_signal_processed`, line 170, and before `_process_signal`, line
173), and every ticket in that line is already marked released there. -/
theorem ticket_release_precedes_handlers (st : MainLoopState) (ra : Option String)
    (fuel : Nat) :
    ∀ e ∈ (st.process_signals ra fuel).2, ∀ p ∈ e.lineAtHandlers, p.2 = true := by
  intro e he p hp
  exact psLoop_log_released fuel (st.register_wait_on_signal ra).2 ra
    (st.register_wait_on_signal ra).1 e he p hp

/-- Witness for `ticket_release_precedes_handlers`: in a run waiting for
kind B that dequeues one B signal, the log entry shows the B ticket line
already released at handler time. -/
theorem ticket_release_precedes_handlers_witness :
    ((⟨⟨"B", 0, 0, (0, 0)⟩, [((0 : Int), true)]⟩ : LogEntry)
        ∈ (MainLoopState.process_signals
            ⟨[], [⟨[⟨"B", 0, 0, (0, 0)⟩], []⟩], ⟨[], 0⟩⟩ (some "B") 1).2) ∧
    (((0 : Int), true)
        ∈ (⟨⟨"B", 0, 0, (0, 0)⟩, [((0 : Int), true)]⟩ : LogEntry).lineAtHandlers) ∧
    ((0 : Int), true).2 = true :=
  ⟨by decide, by decide,
   ticket_release_precedes_handlers ⟨[], [⟨[⟨"B", 0, 0, (0, 0)⟩], []⟩], ⟨[], 0⟩⟩
     (some "B") 1 ⟨⟨"B", 0, 0, (0, 0)⟩, [((0 : Int), true)]⟩ (by decide)
     ((0 : Int), true) (by decide)⟩

/-- C6: when the drain performed by `close_loop` terminates normally, the
call first dispatches all pending signals of the current level (the
drained state has an empty active queue), then pops that level, so the
queue stack becomes its `dropLast` and the active queue is the level
below (the last remaining element), and raises ExitMainLoop exactly
once: the outcome is `exitMainLoop` both when a level remains below and
when the stack underflows (the caught IndexError path of lines 113-114),
so losing the last level ends the loop through the same termination
condition, not through an error. -/
theorem close_loop_drain_pop_exit (st : MainLoopState) (fuel : Nat) (st1 : MainLoopState)
    (log : List LogEntry)
    (h : st.process_signals none fuel = (some (PSOutcome.returned st1), log)) :
    st.close_loop fuel
      = some (CloseOutcome.exitMainLoop,
          ⟨st1.handlers, st1.event_queues.dropLast, st1.processed_signals⟩) ∧
    activeQueueList st1.event_queues = [] := by
  have h1 : (st.process_signals none fuel).1 = some (PSOutcome.returned st1) := by rw [h]
  constructor
  · rcases hq : st1.event_queues.dropLast.getLast? with _ | q
    · simp [MainLoopState.close_loop, h1, hq]
    · simp [MainLoopState.close_loop, h1, hq]
  · exact psLoop_none_returned fuel st (-1) st1 h1

/-- Witness for `close_loop_drain_pop_exit`: a two-level stack whose
inner level holds one signal of kind A drains it, pops the level, and
reports ExitMainLoop with the outer level as the new active queue. -/
theorem close_loop_drain_pop_exit_witness :
    (MainLoopState.process_signals
        ⟨[], [⟨[], [7]⟩, ⟨[⟨"A", 0, 0, (0, 0)⟩], []⟩], ⟨[], 0⟩⟩ none 2
      = (some (PSOutcome.returned ⟨[], [⟨[], [7]⟩, ⟨[], []⟩], ⟨[], 0⟩⟩),
         [⟨⟨"A", 0, 0, (0, 0)⟩, []⟩])) ∧
    (MainLoopState.close_loop
        ⟨[], [⟨[], [7]⟩, ⟨[⟨"A", 0, 0, (0, 0)⟩], []⟩], ⟨[], 0⟩⟩ 2
      = some (CloseOutcome.exitMainLoop, ⟨[], [⟨[], [7]⟩], ⟨[], 0⟩⟩) ∧
     activeQueueList
        (⟨[], [⟨[], [7]⟩, ⟨[], []⟩], ⟨[], 0⟩⟩ : MainLoopState).event_queues = []) :=
  ⟨by rfl,
   close_loop_drain_pop_exit ⟨[], [⟨[], [7]⟩, ⟨[⟨"A", 0, 0, (0, 0)⟩], []⟩], ⟨[], 0⟩⟩ 2
     ⟨[], [⟨[], [7]⟩, ⟨[], []⟩], ⟨[], 0⟩⟩ [⟨⟨"A", 0, 0, (0, 0)⟩, []⟩] (by rfl)⟩

/-! ## InputThreadManager (input_threading.py lines 32-120) -/

/-- `InputRequest` (input_threading.py lines 123-163): the requester
source plus whether `initialize_thread` has created the backing thread
(`self.thread` is None until then). -/
structure InputRequest where
  source : Nat
  threadCreated : Bool
  deriving DecidableEq

/-- `InputThreadManager.__init__` (lines 40-44): the input stack, the
`_processing_input` flag, and whether the InputReceivedSignal handler was
registered with the current loop (lines 78-81). `started_threads`
records, in order, the source of each request whose `start_thread` was
called (line 112), so the model can observe which workers actually ran. -/
structure InputThreadManager where
  input_stack : List InputRequest
  processing_input : Bool
  registered_loop : Bool
  started_threads : List Nat
  deriving DecidableEq

/-- `InputThreadManager._start_user_input_async` (lines 104-112): return
if the stack is empty or input is being processed; otherwise initialize
and start a thread for the top (last) request and set the processing
flag. -/
def InputThreadManager.start_user_input_async (m : InputThreadManager) :
    InputThreadManager :=
  match m.input_stack.getLast? with
  | none => m
  | some t =>
    if m.processing_input then m
    else
      { m with
        input_stack := updLast (fun r => { r with threadCreated := true }) m.input_stack,
        processing_input := true,
        started_threads := m.started_threads ++ [t.source] }

/-- `InputThreadManager._check_input_thread_running` (lines 87-102):
when more than one request is stacked, either log a warning (returned
Bool) or raise a KeyError whose message lists the source of every
pending request (returned list). -/
def InputThreadManager.check_input_thread_running (m : InputThreadManager)
    (raise_concurrent_check : Bool) : Bool × Option (List Nat) :=
  if m.input_stack.length ≠ 1 then
    if ¬ raise_concurrent_check then (true, none)
    else (false, some (m.input_stack.map (fun t => t.source)))
  else (false, none)

/-- `InputThreadManager.start_input_thread` (lines 72-85): register the
handler on first use, push the request, run the concurrency check (whose
KeyError aborts the call before any worker starts, leaving the pushed
request on the stack), then try to start the worker. Returns the new
manager, whether the warning was logged, and the raised error if any. -/
def InputThreadManager.start_input_thread (m : InputThreadManager) (r : InputRequest)
    (concurrent_check : Bool) : InputThreadManager × Bool × Option (List Nat) :=
  let m1 := { m with registered_loop := true }
  let m2 := { m1 with input_stack := m1.input_stack ++ [r] }
  match m2.check_input_thread_running concurrent_check with
  | (w, some err) => (m2, w, some err)
  | (w, none) => (m2.start_user_input_async, w, none)

/-- `InputThreadManager._input_received_handler` (lines 57-70): read the
top (last) entry of the input stack, enqueue an InputReadySignal
addressed to that entry source and carrying the received data, join any
still-running worker threads (a pure wait), pop the satisfied last
entry, clear the processing flag, and start the next worker. Returns the
manager and the enqueued signal (`none` only on an empty stack, where
Python would raise IndexError). -/
def InputThreadManager.input_received_handler (m : InputThreadManager) (data : Nat) :
    InputThreadManager × Option Signal :=
  match m.input_stack.getLast? with
  | none => (m, none)
  | some thread_object =>
    let sig : Signal := ⟨inputReadySignalKind, thread_object.source, data, (0, 0)⟩
    let m1 := { m with
      input_stack := m.input_stack.dropLast,
      processing_input := false }
    (m1.start_user_input_async, some sig)

/-- C8 counterexample: with requests R1 (source 1) then R2 (source 2,
concurrent_check false) pending and R1's worker completing, the
input-ready signal carries source 2 (= R2), not source 1 (= R1), and the
popped request is R2, leaving R1 on the stack -- the claim asserts the
signal is addressed to R1 and that R1 is removed. -/
theorem input_last_wins_counterexample :
    ((((InputThreadManager.mk [] false false []).start_input_thread ⟨1, false⟩
          true).1.start_input_thread ⟨2, false⟩ false).1.input_received_handler 5).2
        = some ⟨"InputReadySignal", 2, 5, (0, 0)⟩ ∧
    (2 : Nat) ≠ 1 ∧
    ((((InputThreadManager.mk [] false false []).start_input_thread ⟨1, false⟩
          true).1.start_input_thread ⟨2, false⟩ false).1.input_received_handler
          5).1.input_stack
        = [⟨1, true⟩] := by
  refine ⟨by decide, by decide, by decide⟩

/-- C8 (amended): starting R1, then R2 with concurrent_check = false
while R1 is pending, accepts R2 with a warning and starts no second
worker while R1's worker is active; when R1's worker completes, the
input-ready signal enqueued carries R2's source and the received data
("last who asked wins"), R2 (the last pushed entry) is removed from the
input stack, and a fresh worker for R1 is then started automatically. -/
theorem input_deferred_request_last_wins (s1 s2 data : Nat) :
    (((InputThreadManager.mk [] false false []).start_input_thread ⟨s1, false⟩ true).2
        = (false, none)) ∧
    (((InputThreadManager.mk [] false false []).start_input_thread ⟨s1, false⟩
        true).1.started_threads = [s1]) ∧
    (((((InputThreadManager.mk [] false false []).start_input_thread ⟨s1, false⟩
        true).1.start_input_thread ⟨s2, false⟩ false).2 = (true, none))) ∧
    ((((InputThreadManager.mk [] false false []).start_input_thread ⟨s1, false⟩
        true).1.start_input_thread ⟨s2, false⟩ false).1.started_threads = [s1]) ∧
    ((((InputThreadManager.mk [] false false []).start_input_thread ⟨s1, false⟩
        true).1.start_input_thread ⟨s2, false⟩ false).1.input_stack
      = [⟨s1, true⟩, ⟨s2, false⟩]) ∧
    (((((InputThreadManager.mk [] false false []).start_input_thread ⟨s1, false⟩
        true).1.start_input_thread ⟨s2, false⟩ false).1.input_received_handler data).2
      = some ⟨"InputReadySignal", s2, data, (0, 0)⟩) ∧
    (((((InputThreadManager.mk [] false false []).start_input_thread ⟨s1, false⟩
        true).1.start_input_thread ⟨s2, false⟩ false).1.input_received_handler
        data).1.input_stack = [⟨s1, true⟩]) ∧
    (((((InputThreadManager.mk [] false false []).start_input_thread ⟨s1, false⟩
        true).1.start_input_thread ⟨s2, false⟩ false).1.input_received_handler
        data).1.started_threads = [s1, s1]) := by
  refine ⟨rfl, rfl, rfl, rfl, rfl, rfl, rfl, rfl⟩

/-- C9 counterexample: after `start_input_thread(R2, concurrent_check =
true)` fails while R1 (source 1) is pending, the input stack holds both
R1 and R2 (the request is appended before the check raises), so R1 is
not the sole pending request and the state did change on error. -/
theorem concurrent_input_stack_counterexample :
    ((((InputThreadManager.mk [] false false []).start_input_thread ⟨1, false⟩
          true).1.start_input_thread ⟨2, false⟩ true).1.input_stack
        = [⟨1, true⟩, ⟨2, false⟩]) ∧
    ([(⟨1, true⟩ : InputRequest), ⟨2, false⟩] ≠ [⟨1, true⟩]) := by
  refine ⟨by decide, by decide⟩

/-- C9 (amended): starting R2 with concurrent_check = true while R1 is
pending fails with a concurrency-violation KeyError whose message
enumerates the sources of all currently pending requests (R1 and R2, in
stack order); after the failure R2 remains pushed on the input stack
behind R1, no worker was started for R2, and R1 remains the sole request
with a started worker. -/
theorem concurrent_input_error_state (s1 s2 : Nat) :
    ((((InputThreadManager.mk [] false false []).start_input_thread ⟨s1, false⟩
        true).1.start_input_thread ⟨s2, false⟩ true).2.2 = some [s1, s2]) ∧
    ((((InputThreadManager.mk [] false false []).start_input_thread ⟨s1, false⟩
        true).1.start_input_thread ⟨s2, false⟩ true).2.1 = false) ∧
    ((((InputThreadManager.mk [] false false []).start_input_thread ⟨s1, false⟩
        true).1.start_input_thread ⟨s2, false⟩ true).1.input_stack
      = [⟨s1, true⟩, ⟨s2, false⟩]) ∧
    ((((InputThreadManager.mk [] false false []).start_input_thread ⟨s1, false⟩
        true).1.start_input_thread ⟨s2, false⟩ true).1.started_threads = [s1]) := by
  refine ⟨rfl, rfl, rfl, rfl⟩
